import Mathlib

/-!
Verification of the terminal torus renderer (`torus.cpp`).

The program samples a torus surface as a point cloud, rotates it each frame
by a fixed 3×3 matrix, and rasterizes it into a `rows × cols` character
buffer with a per-cell depth test.

The embedding below follows the source closely:
* the rasterizer (`convert_range`, projection, depth test, shading,
  frame emission) is embedded generically over a linear ordered field with
  floor, so it can be executed at `ℚ` and reasoned about abstractly;
* the geometry (`calculate_pos_z`, `init_mesh`, the rotation matrix `ROT`,
  `rotate_point`, `rotate_mesh`) uses `ℝ`, since the source relies on
  `sqrt`, `sin` and `cos`.
-/

namespace Torus

/-- A 3D point, `struct Point { float x; float y; float z; }`. -/
structure Point (K : Type) where
  x : K
  y : K
  z : K
  deriving DecidableEq, Repr

section Raster

variable {K : Type} [LinearOrderedField K] [FloorRing K]

/-- `const float MAJOR_RADIUS = 0.6;` -/
def MAJOR_RADIUS : K := 0.6

/-- `const float MINOR_RADIUS = 0.2;` -/
def MINOR_RADIUS : K := 0.2

/-- `const float MAX_X_Y = MAJOR_RADIUS + MINOR_RADIUS;` -/
def MAX_X_Y : K := MAJOR_RADIUS + MINOR_RADIUS

/-- `const int NUM_POINTS = 500;` -/
def NUM_POINTS : ℕ := 500

/-- `const std::string SYMBOLS[4] = {"░", "▒", "▓", "█"};` -/
def SYMBOLS : List String := ["░", "▒", "▓", "█"]

/-- `convert_range(i, a, b, c, d)`: map `i` from range `[a, b]` to `[c, d]`. -/
def convert_range (i a b c d : K) : K :=
  (i - a) / (b - a) * (d - c) + c

/-- Truncation toward zero, the semantics of C++ `static_cast<int>` on a
floating-point value. -/
def truncToInt (q : K) : ℤ :=
  if 0 ≤ q then ⌊q⌋ else ⌈q⌉

/-- `bool order_points(const Point& a, const Point& b)`. -/
def order_points (a b : Point K) : Bool :=
  if a.z < b.z then true else false

/-- `std::sort(points.begin(), points.end(), order_points)`: the collection
sorted ascending by `z` (the order `std::sort` produces for the strict
comparator `order_points`). -/
def sortPoints (pts : List (Point K)) : List (Point K) :=
  pts.mergeSort (fun a b => ! order_points b a)

/-- The depth sentinel `-1e9f`, "very far back". -/
def farDepth : K := -1000000000

/-- The projected column of a point:
`int col = std::floor(convert_range(p.x, -MAX_X_Y, MAX_X_Y, 0.0f, term_cols - 1.0f));` -/
def projCol (cols : ℕ) (p : Point K) : ℤ :=
  ⌊convert_range p.x (-MAX_X_Y) MAX_X_Y 0 ((cols : K) - 1)⌋

/-- The projected row of a point:
`int row = std::floor(convert_range(p.y, -MAX_X_Y, MAX_X_Y, 0.0f, term_rows - 1.0f));` -/
def projRow (rows : ℕ) (p : Point K) : ℤ :=
  ⌊convert_range p.y (-MAX_X_Y) MAX_X_Y 0 ((rows : K) - 1)⌋

/-- The bounds check and linear cell index of `render_mesh`:
`if (col < 0 || col >= term_cols || row < 0 || row >= term_rows) continue;`
followed by `int idx = row * term_cols + col;`.  `none` means the point is
discarded. -/
def cellOf (rows cols : ℕ) (p : Point K) : Option ℕ :=
  if projCol cols p < 0 ∨ (cols : ℤ) ≤ projCol cols p
      ∨ projRow rows p < 0 ∨ (rows : ℤ) ≤ projRow rows p then none
  else some (projRow rows p * (cols : ℤ) + projCol cols p).toNat

/-- The shade selection of `render_mesh`: normalize `z` from
`[-MAX_X_Y, MAX_X_Y]` to `[0,1]`, scale by 4, truncate to `int`, clamp to
`[0, 3]`. -/
def shadeIndex (z : K) : ℤ :=
  if truncToInt ((z + MAX_X_Y) / (2 * MAX_X_Y) * 4) < 0 then 0
  else if 3 < truncToInt ((z + MAX_X_Y) / (2 * MAX_X_Y) * 4) then 3
  else truncToInt ((z + MAX_X_Y) / (2 * MAX_X_Y) * 4)

/-- The per-frame back buffer: parallel `screen` (glyphs) and `depth`
arrays of size `rows * cols`. -/
structure Buffer (K : Type) where
  screen : List String
  depth : List K
  deriving Repr

/-- The freshly initialized back buffer:
`std::vector<std::string> screen(term_rows * term_cols, " ");`
`std::vector<float> depth(term_rows * term_cols, -1e9f);` -/
def initBuffer (rows cols : ℕ) : Buffer K :=
  ⟨List.replicate (rows * cols) " ", List.replicate (rows * cols) farDepth⟩

/-- The body of the per-point loop of `render_mesh`: project, bounds-check,
depth-test, and on success store the depth and the shaded glyph. -/
def rasterStep (rows cols : ℕ) (st : Buffer K) (p : Point K) : Buffer K :=
  match cellOf rows cols p with
  | none => st
  | some idx =>
    if st.depth.getD idx farDepth < p.z then
      ⟨st.screen.set idx (SYMBOLS.getD (shadeIndex p.z).toNat " "),
       st.depth.set idx p.z⟩
    else st

/-- `render_mesh` up to (not including) the frame-drawing loop: fold the
per-point loop over the collection starting from the fresh buffer. -/
def render_mesh (points : List (Point K)) (rows cols : ℕ) : Buffer K :=
  points.foldl (rasterStep rows cols) (initBuffer rows cols)

end Raster

/-- The frame-drawing tail of `render_mesh`: cursor home `"\033[H"`, then the
glyphs row by row, each row terminated by `'\n'`. -/
def frameOutput {K : Type} (buf : Buffer K) (rows cols : ℕ) : String :=
  "\x1b[H" ++ String.join ((List.range rows).map fun r =>
    String.join ((List.range cols).map fun c =>
      buf.screen.getD (r * cols + c) " ") ++ "\n")

/-- The multiset of depths competing for cell `idx`: the `z` coordinates of
the points of `pts` that project in-bounds to cell `idx`. -/
def cellZs {K : Type} [LinearOrderedField K] [FloorRing K]
    (rows cols idx : ℕ) (pts : List (Point K)) : List K :=
  (pts.filter (fun p => cellOf rows cols p == some idx)).map Point.z

/-! ### Geometry over `ℝ` -/

noncomputable section Geometry

/-- `const float THETA = 0.1;` (radians rotation per frame). -/
def THETA : ℝ := 0.1

/-- `const float S = std::sin(THETA);` -/
def S : ℝ := Real.sin THETA

/-- `const float C = std::cos(THETA);` -/
def C : ℝ := Real.cos THETA

/-- A `float[9]`, a 3×3 matrix in row-major order, entry `aK` being `arr[K]`. -/
structure Mat3 where
  a0 : ℝ
  a1 : ℝ
  a2 : ℝ
  a3 : ℝ
  a4 : ℝ
  a5 : ℝ
  a6 : ℝ
  a7 : ℝ
  a8 : ℝ

/-- `const float ROT[9]`: the program's hard-coded rotation matrix. -/
def ROT : Mat3 :=
  ⟨C*C, -(C*S), S,
   S*C + S*S*C, C*C - S*S*S, -(S*C),
   S*S - C*C*S, S*C + C*S*S, C*C⟩

/-- `rotate_point(point, arr)`: 3×3 matrix–vector product. -/
def rotate_point (p : Point ℝ) (arr : Mat3) : Point ℝ :=
  ⟨p.x * arr.a0 + p.y * arr.a1 + p.z * arr.a2,
   p.x * arr.a3 + p.y * arr.a4 + p.z * arr.a5,
   p.x * arr.a6 + p.y * arr.a7 + p.z * arr.a8⟩

/-- `rotate_mesh(points)`: replace every point in place by its rotation. -/
def rotate_mesh (pts : List (Point ℝ)) : List (Point ℝ) :=
  pts.map (fun p => rotate_point p ROT)

/-- Row-major 3×3 matrix product. -/
def mat3mul (A B : Mat3) : Mat3 :=
  ⟨A.a0*B.a0 + A.a1*B.a3 + A.a2*B.a6,
   A.a0*B.a1 + A.a1*B.a4 + A.a2*B.a7,
   A.a0*B.a2 + A.a1*B.a5 + A.a2*B.a8,
   A.a3*B.a0 + A.a4*B.a3 + A.a5*B.a6,
   A.a3*B.a1 + A.a4*B.a4 + A.a5*B.a7,
   A.a3*B.a2 + A.a4*B.a5 + A.a5*B.a8,
   A.a6*B.a0 + A.a7*B.a3 + A.a8*B.a6,
   A.a6*B.a1 + A.a7*B.a4 + A.a8*B.a7,
   A.a6*B.a2 + A.a7*B.a5 + A.a8*B.a8⟩

/-- Transpose of a row-major 3×3 matrix. -/
def mat3transpose (A : Mat3) : Mat3 :=
  ⟨A.a0, A.a3, A.a6, A.a1, A.a4, A.a7, A.a2, A.a5, A.a8⟩

/-- The 3×3 identity matrix. -/
def mat3id : Mat3 := ⟨1, 0, 0, 0, 1, 0, 0, 0, 1⟩

/-- The single-axis rotation by `THETA` about the x-axis, from the spec's
"composition of three axis rotations". -/
def specRotX : Mat3 := ⟨1, 0, 0, 0, C, -S, 0, S, C⟩

/-- The single-axis rotation by `THETA` about the y-axis. -/
def specRotY : Mat3 := ⟨C, 0, S, 0, 1, 0, -S, 0, C⟩

/-- The single-axis rotation by `THETA` about the z-axis. -/
def specRotZ : Mat3 := ⟨C, -S, 0, S, C, 0, 0, 0, 1⟩

/-- Squared distance of a point from the origin. -/
def normSq (p : Point ℝ) : ℝ := p.x * p.x + p.y * p.y + p.z * p.z

/-- `mesh_to_value(i)`: map a grid index from `[0, NUM_POINTS]` to
`[-MAX_X_Y, MAX_X_Y]`. -/
def mesh_to_value (i : ℕ) : ℝ :=
  convert_range (i : ℝ) 0 (NUM_POINTS : ℝ) (-1 * MAX_X_Y) MAX_X_Y

/-- The discriminant `inner = r² − (√(x²+y²) − R)²` of `calculate_pos_z`. -/
def torusInner (x y : ℝ) : ℝ :=
  MINOR_RADIUS ^ 2 - (Real.sqrt (x * x + y * y) - MAJOR_RADIUS) ^ 2

/-- `calculate_pos_z(x, y)`: the positive z on the torus above `(x, y)`, or
none if the sample is off the torus. -/
def calculate_pos_z (x y : ℝ) : Option ℝ :=
  let inner := torusInner x y
  if inner < 0 then none else some (Real.sqrt inner)

/-- The points pushed for one grid sample `(i, j)` in `init_mesh`'s loop
body: none when `calculate_pos_z` is empty, otherwise the top point and the
bottom point (`p.z = -1.0 * z.value()`). -/
def torusSample (i j : ℕ) : List (Point ℝ) :=
  let x := mesh_to_value i
  let y := mesh_to_value j
  match calculate_pos_z x y with
  | none => []
  | some z => [⟨x, y, z⟩, ⟨x, y, -1 * z⟩]

/-- `init_mesh()`: the double loop over the `NUM_POINTS × NUM_POINTS` grid,
appending the sample points in loop order. -/
def init_mesh : List (Point ℝ) :=
  (List.range NUM_POINTS).flatMap fun i =>
    (List.range NUM_POINTS).flatMap fun j => torusSample i j

/-! ### The `main` startup model -/

/-- `struct winsize w{}; ioctl(STDOUT_FILENO, TIOCGWINSZ, &w);` — the
dimensions `main` proceeds with: the queried ones when the query succeeds,
and the zero-initialized `winsize` (0 rows, 0 cols) when it fails.  The
`ioctl` return value is never inspected. -/
def startup_dims (q : Option (ℕ × ℕ)) : ℕ × ℕ :=
  match q with
  | some d => d
  | none => (0, 0)

/-- The frame emitted by the first iteration of `main`'s loop.  `main` has no
conditional exit between the dimension query and the render loop, so a frame
is produced for every query outcome `q`. -/
def main_frame (q : Option (ℕ × ℕ)) : String :=
  let d := startup_dims q
  frameOutput (render_mesh (sortPoints (rotate_mesh init_mesh)) d.1 d.2) d.1 d.2

end Geometry

/-! ### Rasterizer lemmas -/

section RasterProofs

variable {K : Type} [LinearOrderedField K] [FloorRing K]
variable {α : Type}

lemma getD_set_self (l : List α) (i : ℕ) (a d : α) (h : i < l.length) :
    (l.set i a).getD i d = a := by
  simp [List.getD_eq_getElem?_getD, List.getElem?_set_self h]

lemma getD_set_ne (l : List α) {i j : ℕ} (h : i ≠ j) (a d : α) :
    (l.set i a).getD j d = l.getD j d := by
  simp [List.getD_eq_getElem?_getD, List.getElem?_set_ne h]

lemma getD_replicate (n i : ℕ) (a d : α) (h : i < n) :
    (List.replicate n a).getD i d = a := by
  simp [List.getD_eq_getElem?_getD, List.getElem?_replicate, h]

lemma le_foldl_max {β : Type} [LinearOrder β] (a : β) (l : List β) :
    a ≤ l.foldl max a := by
  induction l generalizing a with
  | nil => exact le_refl a
  | cons x l ih => exact le_trans (le_max_left a x) (ih (max a x))

lemma cellOf_lt_of_some {rows cols idx : ℕ} {p : Point K}
    (h : cellOf rows cols p = some idx) : idx < rows * cols := by
  unfold cellOf at h
  split at h
  · exact absurd h (by simp)
  · rename_i hcond
    push_neg at hcond
    obtain ⟨h1, h2, h3, h4⟩ := hcond
    simp only [Option.some.injEq] at h
    subst h
    have hlt : projRow rows p * (cols : ℤ) + projCol cols p < (rows : ℤ) * cols := by
      calc projRow rows p * (cols : ℤ) + projCol cols p
          < projRow rows p * (cols : ℤ) + cols := by omega
        _ = (projRow rows p + 1) * cols := by ring
        _ ≤ (rows : ℤ) * cols := by
            apply mul_le_mul_of_nonneg_right (by omega) (by omega)
    have hnn : 0 ≤ projRow rows p * (cols : ℤ) + projCol cols p :=
      add_nonneg (mul_nonneg h3 (by omega)) h1
    omega

lemma rasterStep_of_none {rows cols : ℕ} {st : Buffer K} {p : Point K}
    (h : cellOf rows cols p = none) : rasterStep rows cols st p = st := by
  simp only [rasterStep, h]

lemma rasterStep_of_le {rows cols idx : ℕ} {st : Buffer K} {p : Point K}
    (h : cellOf rows cols p = some idx)
    (hle : p.z ≤ st.depth.getD idx farDepth) : rasterStep rows cols st p = st := by
  simp only [rasterStep, h]
  rw [if_neg (not_lt.2 hle)]

lemma rasterStep_of_lt {rows cols idx : ℕ} {st : Buffer K} {p : Point K}
    (h : cellOf rows cols p = some idx)
    (hlt : st.depth.getD idx farDepth < p.z) :
    rasterStep rows cols st p =
      ⟨st.screen.set idx (SYMBOLS.getD (shadeIndex p.z).toNat " "),
       st.depth.set idx p.z⟩ := by
  simp only [rasterStep, h]
  rw [if_pos hlt]

lemma rasterStep_depth_length {rows cols : ℕ} (st : Buffer K) (p : Point K) :
    (rasterStep rows cols st p).depth.length = st.depth.length := by
  rcases h : cellOf rows cols p with _ | idx
  · rw [rasterStep_of_none h]
  · by_cases hlt : st.depth.getD idx farDepth < p.z
    · rw [rasterStep_of_lt h hlt]
      simp
    · rw [rasterStep_of_le h (not_lt.1 hlt)]

lemma rasterStep_screen_length {rows cols : ℕ} (st : Buffer K) (p : Point K) :
    (rasterStep rows cols st p).screen.length = st.screen.length := by
  rcases h : cellOf rows cols p with _ | idx
  · rw [rasterStep_of_none h]
  · by_cases hlt : st.depth.getD idx farDepth < p.z
    · rw [rasterStep_of_lt h hlt]
      simp
    · rw [rasterStep_of_le h (not_lt.1 hlt)]

lemma cellZs_nil {rows cols idx : ℕ} :
    cellZs rows cols idx ([] : List (Point K)) = [] := rfl

lemma cellZs_cons_of_some {rows cols idx : ℕ} {p : Point K} (pts : List (Point K))
    (h : cellOf rows cols p = some idx) :
    cellZs rows cols idx (p :: pts) = p.z :: cellZs rows cols idx pts := by
  simp [cellZs, List.filter_cons, h]

lemma cellZs_cons_of_ne {rows cols idx : ℕ} {p : Point K} (pts : List (Point K))
    (h : ¬ cellOf rows cols p = some idx) :
    cellZs rows cols idx (p :: pts) = cellZs rows cols idx pts := by
  simp [cellZs, List.filter_cons, h]

/-- Depth invariant: after folding the per-point loop over `pts`, the depth
stored at an in-range cell `idx` is the running maximum of the starting depth
and the depths of the points of `pts` projecting to `idx`. -/
lemma foldl_depth_getD (rows cols idx : ℕ) (pts : List (Point K)) (st : Buffer K)
    (hd : st.depth.length = rows * cols) (hidx : idx < rows * cols) :
    (pts.foldl (rasterStep rows cols) st).depth.getD idx farDepth
      = (cellZs rows cols idx pts).foldl max (st.depth.getD idx farDepth) := by
  induction pts generalizing st hd with
  | nil => rfl
  | cons p pts ih =>
    rw [List.foldl_cons]
    rcases h : cellOf rows cols p with _ | idx'
    · rw [rasterStep_of_none h, cellZs_cons_of_ne pts (by simp [h]), ih st hd]
    · by_cases hij : idx' = idx
      · subst hij
        by_cases hlt : st.depth.getD idx' farDepth < p.z
        · rw [rasterStep_of_lt h hlt,
            cellZs_cons_of_some pts h, List.foldl_cons, max_eq_right hlt.le]
          rw [ih ⟨st.screen.set idx' (SYMBOLS.getD (shadeIndex p.z).toNat " "),
                st.depth.set idx' p.z⟩ (by simpa using hd)]
          rw [getD_set_self _ _ _ _ (by rw [hd]; exact hidx)]
        · rw [rasterStep_of_le h (not_lt.1 hlt), cellZs_cons_of_some pts h,
            List.foldl_cons, max_eq_left (not_lt.1 hlt), ih st hd]
      · have hne : ¬ cellOf rows cols p = some idx := by simp [h, hij]
        rw [cellZs_cons_of_ne pts hne]
        by_cases hlt : st.depth.getD idx' farDepth < p.z
        · rw [rasterStep_of_lt h hlt]
          rw [ih ⟨st.screen.set idx' (SYMBOLS.getD (shadeIndex p.z).toNat " "),
                st.depth.set idx' p.z⟩ (by simpa using hd)]
          rw [getD_set_ne _ hij _ _]
        · rw [rasterStep_of_le h (not_lt.1 hlt), ih st hd]

/-- Screen invariant: after folding the per-point loop over `pts`, an
in-range cell `idx` shows the shade of the maximal competing depth when some
point beat the starting depth, and the starting glyph otherwise. -/
lemma foldl_screen_getD (rows cols idx : ℕ) (pts : List (Point K)) (st : Buffer K)
    (hd : st.depth.length = rows * cols) (hs : st.screen.length = rows * cols)
    (hidx : idx < rows * cols) :
    (pts.foldl (rasterStep rows cols) st).screen.getD idx " "
      = if st.depth.getD idx farDepth
            < (cellZs rows cols idx pts).foldl max (st.depth.getD idx farDepth)
        then SYMBOLS.getD
              (shadeIndex
                ((cellZs rows cols idx pts).foldl max
                  (st.depth.getD idx farDepth))).toNat " "
        else st.screen.getD idx " " := by
  induction pts generalizing st hd hs with
  | nil =>
    rw [cellZs_nil, List.foldl_nil, List.foldl_nil, if_neg (lt_irrefl _)]
  | cons p pts ih =>
    rw [List.foldl_cons]
    rcases h : cellOf rows cols p with _ | idx'
    · rw [rasterStep_of_none h, cellZs_cons_of_ne pts (by simp [h]), ih st hd hs]
    · by_cases hij : idx' = idx
      · subst hij
        by_cases hlt : st.depth.getD idx' farDepth < p.z
        · rw [cellZs_cons_of_some pts h, List.foldl_cons, max_eq_right hlt.le]
          rw [rasterStep_of_lt h hlt]
          rw [ih ⟨st.screen.set idx' (SYMBOLS.getD (shadeIndex p.z).toNat " "),
                st.depth.set idx' p.z⟩ (by simpa using hd) (by simpa using hs)]
          have hdset : (st.depth.set idx' p.z).getD idx' farDepth = p.z :=
            getD_set_self _ _ _ _ (by rw [hd]; exact hidx)
          have hsset :
              (st.screen.set idx' (SYMBOLS.getD (shadeIndex p.z).toNat " ")).getD idx' " "
                = SYMBOLS.getD (shadeIndex p.z).toNat " " :=
            getD_set_self _ _ _ _ (by rw [hs]; exact hidx)
          rw [hdset, hsset]
          have hM : p.z ≤ (cellZs rows cols idx' pts).foldl max p.z :=
            le_foldl_max p.z _
          rw [if_pos (lt_of_lt_of_le hlt hM)]
          by_cases hpm : p.z < (cellZs rows cols idx' pts).foldl max p.z
          · rw [if_pos hpm]
          · rw [if_neg hpm]
            have hEq : (cellZs rows cols idx' pts).foldl max p.z = p.z :=
              le_antisymm (not_lt.1 hpm) hM
            rw [hEq]
        · rw [rasterStep_of_le h (not_lt.1 hlt), cellZs_cons_of_some pts h,
            List.foldl_cons, max_eq_left (not_lt.1 hlt), ih st hd hs]
      · have hne : ¬ cellOf rows cols p = some idx := by simp [h, hij]
        rw [cellZs_cons_of_ne pts hne]
        by_cases hlt : st.depth.getD idx' farDepth < p.z
        · rw [rasterStep_of_lt h hlt]
          rw [ih ⟨st.screen.set idx' (SYMBOLS.getD (shadeIndex p.z).toNat " "),
                st.depth.set idx' p.z⟩ (by simpa using hd) (by simpa using hs)]
          rw [getD_set_ne _ hij _ _, getD_set_ne _ hij _ _]
        · rw [rasterStep_of_le h (not_lt.1 hlt), ih st hd hs]

/-- The freshly initialized buffer stores `farDepth` at every in-range cell. -/
lemma initBuffer_depth_getD {rows cols idx : ℕ} (hidx : idx < rows * cols) :
    (initBuffer rows cols : Buffer K).depth.getD idx farDepth = farDepth :=
  getD_replicate _ _ _ _ hidx

/-- The freshly initialized buffer stores a blank at every in-range cell. -/
lemma initBuffer_screen_getD {rows cols idx : ℕ} (hidx : idx < rows * cols) :
    (initBuffer rows cols : Buffer K).screen.getD idx " " = " " :=
  getD_replicate _ _ _ _ hidx

/-- `render_mesh` depth characterization from the fresh buffer. -/
lemma render_depth_getD (pts : List (Point K)) (rows cols idx : ℕ)
    (hidx : idx < rows * cols) :
    (render_mesh pts rows cols).depth.getD idx farDepth
      = (cellZs rows cols idx pts).foldl max farDepth := by
  have := foldl_depth_getD rows cols idx pts (initBuffer rows cols)
    (by simp [initBuffer]) hidx
  rwa [initBuffer_depth_getD hidx] at this

/-- `render_mesh` screen characterization from the fresh buffer. -/
lemma render_screen_getD (pts : List (Point K)) (rows cols idx : ℕ)
    (hidx : idx < rows * cols) :
    (render_mesh pts rows cols).screen.getD idx " "
      = if farDepth < (cellZs rows cols idx pts).foldl max farDepth
        then SYMBOLS.getD
              (shadeIndex ((cellZs rows cols idx pts).foldl max farDepth)).toNat " "
        else " " := by
  have := foldl_screen_getD rows cols idx pts (initBuffer rows cols)
    (by simp [initBuffer]) (by simp [initBuffer]) hidx
  rwa [initBuffer_depth_getD hidx, initBuffer_screen_getD hidx] at this

lemma getElem_eq_getD (l : List α) (i : ℕ) (d : α) (h : i < l.length) :
    l[i] = l.getD i d := by
  simp [List.getD_eq_getElem?_getD, List.getElem?_eq_getElem h]

lemma foldl_depth_length {rows cols : ℕ} (pts : List (Point K)) (st : Buffer K) :
    (pts.foldl (rasterStep rows cols) st).depth.length = st.depth.length := by
  induction pts generalizing st with
  | nil => rfl
  | cons p pts ih => rw [List.foldl_cons, ih, rasterStep_depth_length]

lemma foldl_screen_length {rows cols : ℕ} (pts : List (Point K)) (st : Buffer K) :
    (pts.foldl (rasterStep rows cols) st).screen.length = st.screen.length := by
  induction pts generalizing st with
  | nil => rfl
  | cons p pts ih => rw [List.foldl_cons, ih, rasterStep_screen_length]

lemma render_depth_length (pts : List (Point K)) (rows cols : ℕ) :
    (render_mesh pts rows cols).depth.length = rows * cols := by
  rw [render_mesh, foldl_depth_length]
  simp [initBuffer]

lemma render_screen_length (pts : List (Point K)) (rows cols : ℕ) :
    (render_mesh pts rows cols).screen.length = rows * cols := by
  rw [render_mesh, foldl_screen_length]
  simp [initBuffer]

lemma buffer_ext {b1 b2 : Buffer K} (hs : b1.screen = b2.screen)
    (hd : b1.depth = b2.depth) : b1 = b2 := by
  cases b1
  cases b2
  cases hs
  cases hd
  rfl

/-- With zero columns or zero rows the bounds check can never pass. -/
lemma cellOf_eq_none_of_zero {rows cols : ℕ} (h : cols = 0 ∨ rows = 0)
    (p : Point K) : cellOf rows cols p = none := by
  unfold cellOf
  rcases h with h | h <;> subst h
  · rcases lt_or_le (projCol 0 p) 0 with hc | hc
    · rw [if_pos (Or.inl hc)]
    · rw [if_pos (Or.inr (Or.inl (by exact_mod_cast hc)))]
  · rcases lt_or_le (projRow 0 p) 0 with hr | hr
    · rw [if_pos (Or.inr (Or.inr (Or.inl hr)))]
    · rw [if_pos (Or.inr (Or.inr (Or.inr (by exact_mod_cast hr))))]

lemma render_mesh_of_zero {rows cols : ℕ} (h : cols = 0 ∨ rows = 0)
    (pts : List (Point K)) : render_mesh pts rows cols = initBuffer rows cols := by
  rw [render_mesh]
  induction pts with
  | nil => rfl
  | cons p pts ih =>
    rw [List.foldl_cons, rasterStep_of_none (cellOf_eq_none_of_zero h p), ih]

/-- The clamped shade index is always within the palette. -/
lemma shadeIndex_bounds (z : K) : 0 ≤ shadeIndex z ∧ shadeIndex z ≤ 3 := by
  unfold shadeIndex
  split
  · omega
  · split <;> omega

/-- Any palette lookup at a clamped index is one of the four symbols. -/
lemma symbols_getD_mem {k : ℕ} (hk : k ≤ 3) : SYMBOLS.getD k " " ∈ SYMBOLS := by
  interval_cases k <;> simp [SYMBOLS]

/-- Permutations of the collection induce permutations of each cell's
competing depths. -/
lemma cellZs_perm {rows cols idx : ℕ} {pts1 pts2 : List (Point K)}
    (h : pts1.Perm pts2) :
    (cellZs rows cols idx pts1).Perm (cellZs rows cols idx pts2) :=
  (h.filter _).map _

/-- The rendered buffer depends only on the multiset of points. -/
lemma render_mesh_perm {pts1 pts2 : List (Point K)} (rows cols : ℕ)
    (h : pts1.Perm pts2) :
    render_mesh pts1 rows cols = render_mesh pts2 rows cols := by
  apply buffer_ext
  · apply List.ext_getElem
      (by rw [render_screen_length, render_screen_length])
    intro i h1 h2
    have hi : i < rows * cols := by rwa [render_screen_length] at h1
    rw [getElem_eq_getD _ _ " " h1, getElem_eq_getD _ _ " " h2,
      render_screen_getD _ rows cols i hi, render_screen_getD _ rows cols i hi,
      (cellZs_perm h).foldl_eq farDepth]
  · apply List.ext_getElem
      (by rw [render_depth_length, render_depth_length])
    intro i h1 h2
    have hi : i < rows * cols := by rwa [render_depth_length] at h1
    rw [getElem_eq_getD _ _ farDepth h1, getElem_eq_getD _ _ farDepth h2,
      render_depth_getD _ rows cols i hi, render_depth_getD _ rows cols i hi,
      (cellZs_perm h).foldl_eq farDepth]

end RasterProofs

/-! ## Claims -/

section Claims

variable {K : Type} [LinearOrderedField K] [FloorRing K]

/-- C8: rendering an empty point collection produces a fully blank frame:
the buffer equals the freshly initialized one, every cell's glyph is the
blank character, every depth entry stays at the far sentinel, and no error
is raised (rendering is total). -/
theorem C8_empty_collection_blank (rows cols idx : ℕ) (hidx : idx < rows * cols) :
    render_mesh ([] : List (Point K)) rows cols = initBuffer rows cols ∧
    (render_mesh ([] : List (Point K)) rows cols).screen.getD idx " " = " " ∧
    (render_mesh ([] : List (Point K)) rows cols).depth.getD idx farDepth = farDepth :=
  ⟨rfl, initBuffer_screen_getD hidx, initBuffer_depth_getD hidx⟩

/-- Witness for C8 at a concrete buffer size. -/
theorem C8_empty_collection_blank_witness :
    4 < 2 * 3 ∧
    (render_mesh ([] : List (Point ℚ)) 2 3 = initBuffer 2 3 ∧
     (render_mesh ([] : List (Point ℚ)) 2 3).screen.getD 4 " " = " " ∧
     (render_mesh ([] : List (Point ℚ)) 2 3).depth.getD 4 farDepth = farDepth) :=
  ⟨by decide, C8_empty_collection_blank 2 3 4 (by decide)⟩

/-- C6: a point whose projected (floored) column or row falls outside the
terminal is discarded: the loop body leaves both the glyph and the depth
array completely unchanged (no wraparound, no clamping, no error), and the
projection is exactly the linear range conversion from `[-(R+r), R+r]` to
`[0, cols-1]` resp. `[0, rows-1]` followed by flooring. -/
theorem C6_out_of_bounds_discarded (rows cols : ℕ) (st : Buffer K) (p : Point K)
    (h : projCol cols p < 0 ∨ (cols : ℤ) ≤ projCol cols p ∨
      projRow rows p < 0 ∨ (rows : ℤ) ≤ projRow rows p) :
    rasterStep rows cols st p = st ∧
    (rasterStep rows cols st p).screen = st.screen ∧
    (rasterStep rows cols st p).depth = st.depth ∧
    projCol cols p = ⌊convert_range p.x (-MAX_X_Y) MAX_X_Y 0 ((cols : K) - 1)⌋ ∧
    projRow rows p = ⌊convert_range p.y (-MAX_X_Y) MAX_X_Y 0 ((rows : K) - 1)⌋ := by
  have hnone : cellOf rows cols p = none := by
    unfold cellOf
    rw [if_pos h]
  have hstep : rasterStep rows cols st p = st := rasterStep_of_none hnone
  exact ⟨hstep, by rw [hstep], by rw [hstep], rfl, rfl⟩

/-- Witness for C6: the point `(8, 0, 0)` projects to column 5 on a 2×2
terminal and is discarded. -/
theorem C6_out_of_bounds_discarded_witness :
    ((2 : ℤ) ≤ projCol 2 (⟨8, 0, 0⟩ : Point ℚ)) ∧
    (rasterStep 2 2 (initBuffer 2 2) (⟨8, 0, 0⟩ : Point ℚ) = initBuffer 2 2 ∧
     (rasterStep 2 2 (initBuffer 2 2) (⟨8, 0, 0⟩ : Point ℚ)).screen = (initBuffer 2 2 : Buffer ℚ).screen ∧
     (rasterStep 2 2 (initBuffer 2 2) (⟨8, 0, 0⟩ : Point ℚ)).depth = (initBuffer 2 2 : Buffer ℚ).depth ∧
     projCol 2 (⟨8, 0, 0⟩ : Point ℚ)
       = ⌊convert_range (8 : ℚ) (-MAX_X_Y) MAX_X_Y 0 ((2 : ℚ) - 1)⌋ ∧
     projRow 2 (⟨8, 0, 0⟩ : Point ℚ)
       = ⌊convert_range (0 : ℚ) (-MAX_X_Y) MAX_X_Y 0 ((2 : ℚ) - 1)⌋) := by
  have hp : (2 : ℤ) ≤ projCol 2 (⟨8, 0, 0⟩ : Point ℚ) := by
    norm_num [projCol, convert_range, MAX_X_Y, MAJOR_RADIUS, MINOR_RADIUS]
  exact ⟨hp, C6_out_of_bounds_discarded 2 2 (initBuffer 2 2) ⟨8, 0, 0⟩
    (Or.inr (Or.inl hp))⟩

/-- C10: memory safety of `render_mesh`: every index that passes the bounds
check is within the allocated `rows * cols` arrays, and with zero rows or
zero columns every point is discarded, the buffer stays freshly initialized,
and the emitted frame is the cursor-home sequence followed by the row
terminators only. -/
theorem C10_render_mesh_safe (pts : List (Point K)) (rows cols : ℕ) :
    (∀ (p : Point K) (idx : ℕ), cellOf rows cols p = some idx → idx < rows * cols) ∧
    (cols = 0 ∨ rows = 0 →
      render_mesh pts rows cols = initBuffer rows cols ∧
      frameOutput (render_mesh pts rows cols) rows cols
        = "\x1b[H" ++ String.join (List.replicate rows "\n")) := by
  constructor
  · intro p idx h
    exact cellOf_lt_of_some h
  · intro h
    refine ⟨render_mesh_of_zero h pts, ?_⟩
    rcases h with h | h
    · subst h
      have hj : String.join [] ++ "\n" = "\n" := rfl
      simp [frameOutput, List.map_const', hj]
    · subst h
      simp [frameOutput]

/-- Witness for C10 on a zero-column terminal. -/
theorem C10_render_mesh_safe_witness :
    ((0 : ℕ) = 0 ∨ (2 : ℕ) = 0) ∧
    (render_mesh ([⟨0, 0, 1⟩] : List (Point ℚ)) 2 0 = initBuffer 2 0 ∧
     frameOutput (render_mesh ([⟨0, 0, 1⟩] : List (Point ℚ)) 2 0) 2 0
       = "\x1b[H" ++ String.join (List.replicate 2 "\n")) :=
  ⟨Or.inl rfl, (C10_render_mesh_safe [⟨0, 0, 1⟩] 2 0).2 (Or.inl rfl)⟩

/-- C5: palette safety: the shade index computed from any depth is clamped
into `[0, 3]`, and every cell of the rendered glyph buffer is either the
blank character or one of the four palette symbols — even for depths outside
`[-(R+r), R+r]`. -/
theorem C5_palette_in_bounds (pts : List (Point K)) (rows cols idx : ℕ) (z : K) :
    (0 ≤ shadeIndex z ∧ shadeIndex z ≤ 3) ∧
    ((render_mesh pts rows cols).screen.getD idx " " = " " ∨
     (render_mesh pts rows cols).screen.getD idx " " ∈ SYMBOLS) := by
  refine ⟨shadeIndex_bounds z, ?_⟩
  by_cases hidx : idx < rows * cols
  · rw [render_screen_getD pts rows cols idx hidx]
    split
    · right
      apply symbols_getD_mem
      have hb := shadeIndex_bounds
        ((cellZs rows cols idx pts).foldl max farDepth)
      omega
    · left
      rfl
  · left
    have hlen : (render_mesh pts rows cols).screen.length ≤ idx := by
      rw [render_screen_length]
      omega
    simp [List.getD_eq_getElem?_getD, List.getElem?_eq_none hlen]

/-- C1: the rasterizer's depth test.  Per step: an in-bounds point overwrites
its cell's depth and glyph when its `z` is strictly greater than the stored
depth, and leaves the cell (and the whole buffer) untouched when `z` is less
than or equal (ties do not overwrite).  Consequently, for every cell of the
final buffer, regardless of the processing order, the stored depth is the
maximum `z` among the points mapping to that cell (or the far sentinel when
none beat it) and the glyph is the shade of that nearest depth. -/
theorem C1_depth_test (pts : List (Point K)) (rows cols idx : ℕ)
    (hidx : idx < rows * cols) :
    (∀ (st : Buffer K) (p : Point K), cellOf rows cols p = some idx →
      (st.depth.getD idx farDepth < p.z →
        rasterStep rows cols st p =
          ⟨st.screen.set idx (SYMBOLS.getD (shadeIndex p.z).toNat " "),
           st.depth.set idx p.z⟩) ∧
      (p.z ≤ st.depth.getD idx farDepth → rasterStep rows cols st p = st)) ∧
    (render_mesh pts rows cols).depth.getD idx farDepth
      = (cellZs rows cols idx pts).foldl max farDepth ∧
    (render_mesh pts rows cols).screen.getD idx " "
      = (if farDepth < (cellZs rows cols idx pts).foldl max farDepth
         then SYMBOLS.getD
           (shadeIndex ((cellZs rows cols idx pts).foldl max farDepth)).toNat " "
         else " ") :=
  ⟨fun _st p h => ⟨fun hlt => rasterStep_of_lt h hlt, fun hle => rasterStep_of_le h hle⟩,
   render_depth_getD pts rows cols idx hidx,
   render_screen_getD pts rows cols idx hidx⟩

/-- Witness for C1: two points both projecting to cell 4 of a 3×3 terminal,
with the nearer (`z = 1/2`) processed first. -/
theorem C1_depth_test_witness :
    4 < 3 * 3 ∧
    cellOf 3 3 (⟨0, 0, 1/2⟩ : Point ℚ) = some 4 ∧
    (initBuffer 3 3 : Buffer ℚ).depth.getD 4 farDepth < (1/2 : ℚ) ∧
    rasterStep 3 3 (initBuffer 3 3) (⟨0, 0, 1/2⟩ : Point ℚ)
      = ⟨(initBuffer 3 3 : Buffer ℚ).screen.set 4
           (SYMBOLS.getD (shadeIndex (1/2 : ℚ)).toNat " "),
         (initBuffer 3 3 : Buffer ℚ).depth.set 4 (1/2 : ℚ)⟩ ∧
    (render_mesh ([⟨0, 0, 1/2⟩, ⟨0, 0, 1/4⟩] : List (Point ℚ)) 3 3).depth.getD 4 farDepth
      = (cellZs 3 3 4 ([⟨0, 0, 1/2⟩, ⟨0, 0, 1/4⟩] : List (Point ℚ))).foldl max farDepth ∧
    (render_mesh ([⟨0, 0, 1/2⟩, ⟨0, 0, 1/4⟩] : List (Point ℚ)) 3 3).screen.getD 4 " "
      = (if farDepth
            < (cellZs 3 3 4 ([⟨0, 0, 1/2⟩, ⟨0, 0, 1/4⟩] : List (Point ℚ))).foldl max farDepth
         then SYMBOLS.getD
           (shadeIndex
             ((cellZs 3 3 4 ([⟨0, 0, 1/2⟩, ⟨0, 0, 1/4⟩] : List (Point ℚ))).foldl max
               farDepth)).toNat " "
         else " ") := by
  have h := C1_depth_test ([⟨0, 0, 1/2⟩, ⟨0, 0, 1/4⟩] : List (Point ℚ)) 3 3 4 (by decide)
  have hc : cellOf 3 3 (⟨0, 0, 1/2⟩ : Point ℚ) = some 4 := by
    norm_num [cellOf, projCol, projRow, convert_range, MAX_X_Y, MAJOR_RADIUS, MINOR_RADIUS]
    rfl
  have hd : (initBuffer 3 3 : Buffer ℚ).depth.getD 4 farDepth < (1/2 : ℚ) := by
    rw [initBuffer_depth_getD (by decide)]
    norm_num [farDepth]
  exact ⟨by decide, hc, hd, (h.1 _ _ hc).1 hd, h.2.1, h.2.2⟩

/-- C3: the rendered buffer — and hence the emitted frame — is identical for
every permutation of the point collection; in particular rasterizing the
z-sorted collection produced by `std::sort` yields exactly the same output
as rasterizing the unsorted collection, so the per-frame sort is redundant
for occlusion correctness. -/
theorem C3_order_independent (pts1 pts2 : List (Point K)) (rows cols : ℕ)
    (h : pts1.Perm pts2) :
    render_mesh pts1 rows cols = render_mesh pts2 rows cols ∧
    frameOutput (render_mesh pts1 rows cols) rows cols
      = frameOutput (render_mesh pts2 rows cols) rows cols ∧
    render_mesh (sortPoints pts1) rows cols = render_mesh pts1 rows cols ∧
    frameOutput (render_mesh (sortPoints pts1) rows cols) rows cols
      = frameOutput (render_mesh pts1 rows cols) rows cols := by
  have hmain := render_mesh_perm rows cols h
  have hsort : render_mesh (sortPoints pts1) rows cols = render_mesh pts1 rows cols :=
    render_mesh_perm rows cols
      (List.mergeSort_perm pts1 (fun a b => ! order_points b a))
  exact ⟨hmain, by rw [hmain], hsort, by rw [hsort]⟩

/-- Witness for C3: swapping two points that compete for the same cell. -/
theorem C3_order_independent_witness :
    ([⟨0, 0, 1/2⟩, ⟨0, 0, 1/4⟩] : List (Point ℚ)).Perm
      ([⟨0, 0, 1/4⟩, ⟨0, 0, 1/2⟩] : List (Point ℚ)) ∧
    render_mesh ([⟨0, 0, 1/2⟩, ⟨0, 0, 1/4⟩] : List (Point ℚ)) 3 3
      = render_mesh ([⟨0, 0, 1/4⟩, ⟨0, 0, 1/2⟩] : List (Point ℚ)) 3 3 ∧
    render_mesh (sortPoints ([⟨0, 0, 1/2⟩, ⟨0, 0, 1/4⟩] : List (Point ℚ))) 3 3
      = render_mesh ([⟨0, 0, 1/2⟩, ⟨0, 0, 1/4⟩] : List (Point ℚ)) 3 3 := by
  have hperm : ([⟨0, 0, 1/2⟩, ⟨0, 0, 1/4⟩] : List (Point ℚ)).Perm
      ([⟨0, 0, 1/4⟩, ⟨0, 0, 1/2⟩] : List (Point ℚ)) := List.Perm.swap _ _ _
  have h := C3_order_independent ([⟨0, 0, 1/2⟩, ⟨0, 0, 1/4⟩] : List (Point ℚ))
    ([⟨0, 0, 1/4⟩, ⟨0, 0, 1/2⟩] : List (Point ℚ)) 3 3 hperm
  exact ⟨hperm, h.1, h.2.2.1⟩

/-- C9: the point collection's size is invariant after initialization:
`rotate_mesh` is an in-place element-wise map and the per-frame sort is a
permutation, so every per-frame operation preserves the number of points
(`render_mesh` takes the collection by const reference and, in this pure
embedding, cannot modify it). -/
theorem C9_size_invariant (pts : List (Point ℝ)) :
    (rotate_mesh pts).length = pts.length ∧
    (sortPoints (rotate_mesh pts)).Perm (rotate_mesh pts) ∧
    (sortPoints (rotate_mesh pts)).length = pts.length := by
  have h1 : (rotate_mesh pts).length = pts.length := List.length_map _ _
  have h2 : (sortPoints (rotate_mesh pts)).Perm (rotate_mesh pts) :=
    List.mergeSort_perm (rotate_mesh pts) (fun a b => ! order_points b a)
  exact ⟨h1, h2, by rw [h2.length_eq, h1]⟩

set_option maxRecDepth 4000 in
/-- C2: the surface sampler.  For each grid pair `(i, j)`: when the
discriminant `inner = r² − (√(x²+y²) − R)²` is negative the sample emits no
points, otherwise it emits exactly the two points with equal `(x, y)` and
`z = ±√inner`; consequently the whole collection holds at most
`2·NUM_POINTS²` points. -/
theorem C2_sampler_two_sheets (i j : ℕ) (hi : i < NUM_POINTS) (hj : j < NUM_POINTS) :
    (torusInner (mesh_to_value i) (mesh_to_value j) < 0 → torusSample i j = []) ∧
    (0 ≤ torusInner (mesh_to_value i) (mesh_to_value j) →
      torusSample i j =
        [⟨mesh_to_value i, mesh_to_value j,
            Real.sqrt (torusInner (mesh_to_value i) (mesh_to_value j))⟩,
         ⟨mesh_to_value i, mesh_to_value j,
            -1 * Real.sqrt (torusInner (mesh_to_value i) (mesh_to_value j))⟩]) ∧
    init_mesh.length ≤ 2 * NUM_POINTS ^ 2 := by
  refine ⟨?_, ?_, ?_⟩
  · intro hneg
    simp [torusSample, calculate_pos_z, hneg]
  · intro hpos
    simp [torusSample, calculate_pos_z, not_lt.2 hpos]
  · have hsample : ∀ a b : ℕ, (torusSample a b).length ≤ 2 := by
      intro a b
      unfold torusSample
      rcases hz : calculate_pos_z (mesh_to_value a) (mesh_to_value b) with _ | z <;>
        simp [hz]
    have hinner : ∀ a : ℕ,
        ((List.range NUM_POINTS).flatMap fun b => torusSample a b).length
          ≤ NUM_POINTS * 2 := by
      intro a
      rw [List.length_flatMap]
      have := List.sum_le_card_nsmul
        ((List.range NUM_POINTS).map fun b => (torusSample a b).length) 2
        (by
          intro x hx
          rcases List.mem_map.1 hx with ⟨b, _, rfl⟩
          exact hsample a b)
      rwa [List.length_map, List.length_range, smul_eq_mul] at this
    have houter : init_mesh.length ≤ NUM_POINTS * (NUM_POINTS * 2) := by
      rw [init_mesh, List.length_flatMap]
      have := List.sum_le_card_nsmul
        ((List.range NUM_POINTS).map fun a =>
          ((List.range NUM_POINTS).flatMap fun b => torusSample a b).length)
        (NUM_POINTS * 2)
        (by
          intro x hx
          rcases List.mem_map.1 hx with ⟨a, _, rfl⟩
          exact hinner a)
      rwa [List.length_map, List.length_range, smul_eq_mul] at this
    calc init_mesh.length ≤ NUM_POINTS * (NUM_POINTS * 2) := houter
      _ = 2 * NUM_POINTS ^ 2 := by ring

set_option maxRecDepth 4000 in
/-- Witness for C2 at grid sample `(0, 0)`, which lies outside the torus's
projection (`inner < 0`), so no points are emitted there. -/
theorem C2_sampler_two_sheets_witness :
    0 < NUM_POINTS ∧
    torusInner (mesh_to_value 0) (mesh_to_value 0) < 0 ∧
    torusSample 0 0 = [] ∧
    init_mesh.length ≤ 2 * NUM_POINTS ^ 2 := by
  have h := C2_sampler_two_sheets 0 0 (by decide) (by decide)
  have hmv : mesh_to_value 0 = -0.8 := by
    norm_num [mesh_to_value, convert_range, MAX_X_Y, MAJOR_RADIUS, MINOR_RADIUS,
      NUM_POINTS]
  have hneg : torusInner (mesh_to_value 0) (mesh_to_value 0) < 0 := by
    rw [hmv]
    unfold torusInner
    rw [show ((-0.8 : ℝ) * -0.8 + -0.8 * -0.8 : ℝ) = 1.28 by norm_num]
    have h1 : Real.sqrt 1.28 ^ 2 = 1.28 := Real.sq_sqrt (by norm_num)
    have h2 : 0 ≤ Real.sqrt 1.28 := Real.sqrt_nonneg _
    have h3 : Real.sqrt 1.28 < 1.2 := by nlinarith
    simp only [MINOR_RADIUS, MAJOR_RADIUS]
    nlinarith [h1, h2, h3]
  exact ⟨by decide, hneg, h.1 hneg, h.2.2⟩

/-- The Pythagorean identity for the program's cached `sin`/`cos` values. -/
lemma S_sq_add_C_sq : S ^ 2 + C ^ 2 = 1 := by
  simp [S, C, Real.sin_sq_add_cos_sq]

/-- Matrix–vector products compose: multiplying by `mat3mul A B` equals
multiplying by `B` and then by `A`. -/
lemma rotate_point_mat3mul (p : Point ℝ) (A B : Mat3) :
    rotate_point p (mat3mul A B) = rotate_point (rotate_point p B) A := by
  simp only [rotate_point, mat3mul, Point.mk.injEq]
  refine ⟨?_, ?_, ?_⟩ <;> ring

lemma normSq_rotate_specRotX (p : Point ℝ) :
    normSq (rotate_point p specRotX) = normSq p := by
  simp only [normSq, rotate_point, specRotX]
  linear_combination (p.y * p.y + p.z * p.z) * S_sq_add_C_sq

lemma normSq_rotate_specRotY (p : Point ℝ) :
    normSq (rotate_point p specRotY) = normSq p := by
  simp only [normSq, rotate_point, specRotY]
  linear_combination (p.x * p.x + p.z * p.z) * S_sq_add_C_sq

lemma normSq_rotate_specRotZ (p : Point ℝ) :
    normSq (rotate_point p specRotZ) = normSq p := by
  simp only [normSq, rotate_point, specRotZ]
  linear_combination (p.x * p.x + p.y * p.y) * S_sq_add_C_sq

/-- The program's matrix is the product of the three axis rotations. -/
lemma ROT_eq_product : ROT = mat3mul specRotX (mat3mul specRotY specRotZ) := by
  simp only [ROT, specRotX, specRotY, specRotZ, mat3mul, Mat3.mk.injEq]
  refine ⟨?_, ?_, ?_, ?_, ?_, ?_, ?_, ?_, ?_⟩ <;> ring

lemma mat3transpose_mul (A B : Mat3) :
    mat3transpose (mat3mul A B) = mat3mul (mat3transpose B) (mat3transpose A) := by
  simp only [mat3mul, mat3transpose, Mat3.mk.injEq]
  refine ⟨?_, ?_, ?_, ?_, ?_, ?_, ?_, ?_, ?_⟩ <;> ring

lemma mat3mul_assoc (A B D : Mat3) :
    mat3mul (mat3mul A B) D = mat3mul A (mat3mul B D) := by
  simp only [mat3mul, Mat3.mk.injEq]
  refine ⟨?_, ?_, ?_, ?_, ?_, ?_, ?_, ?_, ?_⟩ <;> ring

lemma mat3mul_id_left (A : Mat3) : mat3mul mat3id A = A := by
  cases A
  simp only [mat3mul, mat3id, Mat3.mk.injEq]
  refine ⟨?_, ?_, ?_, ?_, ?_, ?_, ?_, ?_, ?_⟩ <;> ring

lemma specRotX_orth : mat3mul (mat3transpose specRotX) specRotX = mat3id := by
  simp only [specRotX, mat3transpose, mat3mul, mat3id, Mat3.mk.injEq]
  refine ⟨?_, ?_, ?_, ?_, ?_, ?_, ?_, ?_, ?_⟩ <;>
    first
      | ring1
      | linear_combination S_sq_add_C_sq

lemma specRotY_orth : mat3mul (mat3transpose specRotY) specRotY = mat3id := by
  simp only [specRotY, mat3transpose, mat3mul, mat3id, Mat3.mk.injEq]
  refine ⟨?_, ?_, ?_, ?_, ?_, ?_, ?_, ?_, ?_⟩ <;>
    first
      | ring1
      | linear_combination S_sq_add_C_sq

lemma specRotZ_orth : mat3mul (mat3transpose specRotZ) specRotZ = mat3id := by
  simp only [specRotZ, mat3transpose, mat3mul, mat3id, Mat3.mk.injEq]
  refine ⟨?_, ?_, ?_, ?_, ?_, ?_, ?_, ?_, ?_⟩ <;>
    first
      | ring1
      | linear_combination S_sq_add_C_sq

/-- C4: the hard-coded matrix `ROT` is exactly the product of the three
single-axis rotations by `THETA` (x · y · z), it is orthogonal
(`ROTᵀ · ROT = I`), and therefore, in exact arithmetic, `rotate_point`
preserves every point's distance from the origin. -/
theorem C4_rotation_orthogonal :
    ROT = mat3mul specRotX (mat3mul specRotY specRotZ) ∧
    mat3mul (mat3transpose ROT) ROT = mat3id ∧
    (∀ p : Point ℝ, normSq (rotate_point p ROT) = normSq p) ∧
    (∀ p : Point ℝ,
      Real.sqrt (normSq (rotate_point p ROT)) = Real.sqrt (normSq p)) := by
  have hnorm : ∀ p : Point ℝ, normSq (rotate_point p ROT) = normSq p := by
    intro p
    rw [ROT_eq_product, rotate_point_mat3mul, rotate_point_mat3mul,
      normSq_rotate_specRotX, normSq_rotate_specRotY, normSq_rotate_specRotZ]
  refine ⟨ROT_eq_product, ?_, hnorm, fun p => by rw [hnorm p]⟩
  rw [ROT_eq_product, mat3transpose_mul, mat3transpose_mul, mat3mul_assoc]
  rw [show mat3mul (mat3transpose specRotX)
        (mat3mul specRotX (mat3mul specRotY specRotZ))
      = mat3mul (mat3mul (mat3transpose specRotX) specRotX)
        (mat3mul specRotY specRotZ) from (mat3mul_assoc _ _ _).symm]
  rw [specRotX_orth, mat3mul_id_left, mat3mul_assoc]
  rw [show mat3mul (mat3transpose specRotY) (mat3mul specRotY specRotZ)
      = mat3mul (mat3mul (mat3transpose specRotY) specRotY) specRotZ from
      (mat3mul_assoc _ _ _).symm]
  rw [specRotY_orth, mat3mul_id_left, specRotZ_orth]

/-- C7 counterexample: `main` never checks the terminal dimension query.
When the query is unavailable the zero-initialized `winsize` is used
(0 rows, 0 columns) and the render loop still runs, emitting a frame — the
cursor-home escape sequence — instead of exiting with a diagnostic. -/
theorem C7_counterexample_no_exit :
    startup_dims none = (0, 0) ∧
    main_frame none = "\x1b[H" ∧
    ("\x1b[H" : String) ≠ "" := by
  refine ⟨rfl, ?_, by decide⟩
  show frameOutput (render_mesh (sortPoints (rotate_mesh init_mesh)) 0 0) 0 0 = "\x1b[H"
  rw [frameOutput]
  rw [show String.join ((List.range 0).map fun r =>
      String.join ((List.range 0).map fun c =>
        (render_mesh (sortPoints (rotate_mesh init_mesh)) 0 0).screen.getD
          (r * 0 + c) " ") ++ "\n") = "" from rfl, String.append_empty]

/-- C7 amended: the dimension query's outcome is never inspected: `main`
proceeds to render for every outcome, a successful query passes its
dimensions through unchanged, a failed query yields the zero-initialized
0×0 dimensions, and the loop still emits a (cursor-home only) frame. -/
theorem C7_amended_no_check :
    startup_dims none = (0, 0) ∧
    (∀ d : ℕ × ℕ, startup_dims (some d) = d) ∧
    (∀ q : Option (ℕ × ℕ), 3 ≤ (main_frame q).length) ∧
    main_frame none = "\x1b[H" := by
  refine ⟨rfl, fun d => rfl, ?_, ?_⟩
  · intro q
    show 3 ≤ (frameOutput _ _ _).length
    rw [frameOutput, String.length_append,
      show ("\x1b[H" : String).length = 3 from rfl]
    omega
  · show frameOutput (render_mesh (sortPoints (rotate_mesh init_mesh)) 0 0) 0 0 = "\x1b[H"
    rw [frameOutput]
    rw [show String.join ((List.range 0).map fun r =>
        String.join ((List.range 0).map fun c =>
          (render_mesh (sortPoints (rotate_mesh init_mesh)) 0 0).screen.getD
            (r * 0 + c) " ") ++ "\n") = "" from rfl, String.append_empty]

end Claims

end Torus
